import Mathlib

/-!
Verification development for the bertjs repository (src/bert.js): a codec
between JavaScript values and the BERT (Binary ERlang Term) wire format.

The JavaScript source is shallowly embedded:
  - JS values are the inductive `JsValue` (numbers are rationals; JS strings
    are lists of UTF-16 code units; `BertObj` instances carry a type string
    and a payload).
  - byte buffers (both decode input and the encoder's output buffer) are
    `List Int`, matching JS arrays of numbers,
  - thrown JS exceptions and runtime type errors become `Except JsErr`,
  - the decoder's and encoder's recursion is indexed by explicit fuel; every
    recursive call decrements it.  Insufficient fuel surfaces as the
    distinguished `JsErr.outOfFuel`, which a real run never produces when the
    fuel exceeds the total number of calls.
-/

namespace Bertjs

/-- Code units of a Lean string literal, used to model JS string literals. -/
def strCodes (s : String) : List Nat := s.data.map Char.toNat

/-- Shallow model of a JavaScript value as it flows through bert.js.
`num` carries a finite number as a rational; NaN and the infinities are the
separate constructors `nan` and `inf`.  `str` is a JS string as its UTF-16
code units.  `jobj` is a plain object as an association list (keys assumed
distinct, as produced by object literals).  `bert` is an instance of the
source's `BertObj` class: a type string and a payload. -/
inductive JsValue where
  | undef
  | jnull
  | bool (b : Bool)
  | num (q : ℚ)
  | nan
  | inf (negative : Bool)
  | str (s : List Nat)
  | arr (elems : List JsValue)
  | jobj (pairs : List (List Nat × JsValue))
  | bert (type : String) (value : JsValue)

/-- The source's `BertObj`: `new BertObj(type, value)`. -/
structure BertObj where
  type : String
  value : JsValue

/-- A `BertObj` instance viewed as a JS value. -/
def BertObj.toJsValue (o : BertObj) : JsValue := .bert o.type o.value

/-- Failure modes: `thrown` is a JS `throw` of the given message string;
`typeError` is the runtime "is not a function" error raised when dispatch
(`this["decode" + type]` / `this["encode" + obj.type]`) finds no method,
recorded by the missing method's name; `outOfFuel` is the fuel artifact of
the embedding; `unmodelled` marks payload shapes (for example a number
handed to a string encoder) whose implicit JS coercion behavior is outside
the modelled fragment and which no well-formed input reaches. -/
inductive JsErr where
  | thrown (msg : String)
  | typeError (missingMethod : String)
  | outOfFuel
  | unmodelled (what : String)
deriving DecidableEq

/-- JS `ToUint32`: interpret an integer modulo 2^32. -/
def toUint32 (n : Int) : Nat := (n % 4294967296).toNat

/-- JS `ToInt32`: interpret an integer as a signed 32-bit value. -/
def toInt32 (n : Int) : Int :=
  if toUint32 n < 2147483648 then (toUint32 n : Int) else (toUint32 n : Int) - 4294967296

/-- Truncation toward zero of a rational, as JS `ToInt32` begins by doing. -/
def ratTrunc (q : ℚ) : Int :=
  if 0 ≤ q.num then q.num / (q.den : ℤ) else -(-q.num / (q.den : ℤ))

/-- JS `ToInt32` applied to a (finite) JS number. -/
def jsToInt32 (q : ℚ) : Int := toInt32 (ratTrunc q)

/-- JS `x << k` on an integer operand: both operands pass through `ToInt32`,
the shift count is taken mod 32, and the result wraps to 32 signed bits. -/
def jsShlI (a : Int) (k : Nat) : Int := toInt32 (toInt32 a * 2 ^ (k % 32))

/-- JS `x >> k` on a (finite) number operand: `ToInt32` then arithmetic
(sign-extending, i.e. floor) shift right by the count mod 32. -/
def jsShrQ (q : ℚ) (k : Nat) : Int := Int.fdiv (jsToInt32 q) (2 ^ (k % 32))

/-- JS `ToUint16`, as applied by `String.fromCharCode`; `undefined` reads of
out-of-range indexes are already mapped to 0 by callers. -/
def jsToUint16 (x : Int) : Nat := (x % 65536).toNat

/-- Iteration count of a JS `for (i = 0; i < n; i++)` loop whose bound is the
(possibly negative) number `n`. -/
def loopCount (n : Int) : Nat := n.toNat

/-- JS `slice(0, n)` on an array, for a possibly negative or oversized `n`
(a negative index counts from the end). -/
def jsSliceTo (data : List Int) (n : Int) : List Int :=
  if 0 ≤ n then data.take n.toNat
  else data.take (data.length - min (-n).toNat data.length)

/-- JS `slice(n)` on an array, for a possibly negative or oversized `n`. -/
def jsSliceFrom (data : List Int) (n : Int) : List Int :=
  if 0 ≤ n then data.drop n.toNat
  else data.drop (data.length - min (-n).toNat data.length)

/-- The source's `Bert.split(data, length)`: both halves of a JS slice. -/
def split (data : List Int) (n : Int) : List Int × List Int :=
  (jsSliceTo data n, jsSliceFrom data n)

/-- The source's `BERT_TOKENS` registry: one-byte wire tag to type name
(`undefined`, i.e. `none`, for a byte with no entry). -/
def BERT_TOKENS : Int → Option String
  | 131 => some "start"
  | 70 => some "NewFloat"
  | 77 => some "BitString"
  | 97 => some "SmallInt"
  | 98 => some "Int"
  | 99 => some "Float"
  | 100 => some "Atom"
  | 102 => some "Port"
  | 103 => some "Pid"
  | 104 => some "SmallTuple"
  | 105 => some "Tuple"
  | 106 => some "Nil"
  | 107 => some "String"
  | 108 => some "List"
  | 109 => some "Binary"
  | 110 => some "SmallBig"
  | 111 => some "Big"
  | 115 => some "SmallAtom"
  | 116 => some "Map"
  | 118 => some "AtomUtf8"
  | 119 => some "SmallAtomUtf8"
  | _ => none

/-- The source's `Bert.fourByteMaxNumber()`, i.e. 2^27 - 1. -/
def fourByteMaxNumber : ℚ := 134217727

/-- The error thrown by the source's `maxNumberError()`. -/
def maxNumberError : JsErr := .thrown "Your data is too long. Seriously, way too long."

/-- JS `typeof`.  Note it yields "object" for `null`, arrays, plain objects
and `BertObj` instances alike, and never yields "array". -/
def jsTypeof : JsValue → String
  | .undef => "undefined"
  | .jnull => "object"
  | .bool _ => "boolean"
  | .num _ | .nan | .inf _ => "number"
  | .str _ => "string"
  | .arr _ => "object"
  | .jobj _ => "object"
  | .bert _ _ => "object"

/-- JS `x instanceof Array`. -/
def instanceofArray : JsValue → Bool
  | .arr _ => true
  | _ => false

/-- JS `x instanceof Object`: true for arrays, plain objects and class
instances, false for primitives (and for `null` and `undefined`). -/
def instanceofObject : JsValue → Bool
  | .arr _ | .jobj _ | .bert _ _ => true
  | _ => false

/-- Source constructor `Bert.Nil()`. -/
def mkNil : BertObj := ⟨"Nil", .arr []⟩

/-- Source constructor `Bert.Int(value)`. -/
def mkInt (value : JsValue) : BertObj := ⟨"Int", value⟩

/-- Source constructor `Bert.Float(value)` (tagged NewFloat). -/
def mkFloat (value : JsValue) : BertObj := ⟨"NewFloat", value⟩

/-- Source constructor `Bert.Atom(value)`. -/
def mkAtom (value : JsValue) : BertObj := ⟨"Atom", value⟩

/-- Source constructor `Bert.String(value)`. -/
def mkString (value : JsValue) : BertObj := ⟨"String", value⟩

/-- Source constructor `Bert.Binary(value)`. -/
def mkBinary (value : JsValue) : BertObj := ⟨"Binary", value⟩

/-- Source constructor `Bert.Tuple(value)` with its array guard. -/
def mkTuple (value : JsValue) : Except JsErr BertObj :=
  if instanceofArray value then .ok ⟨"Tuple", value⟩
  else .error (.thrown "Must use an array to create tuples.")

/-- Source constructor `Bert.Map(value)` with its object-or-array guard. -/
def mkMap (value : JsValue) : Except JsErr BertObj :=
  if instanceofObject value then .ok ⟨"Map", value⟩
  else .error (.thrown "Must use an object or an array to create maps.")

/-- Source constructor `Bert.List(value)` with its array guard. -/
def mkList (value : JsValue) : Except JsErr BertObj :=
  if instanceofArray value then .ok ⟨"List", value⟩
  else .error (.thrown "Must use an array to create lists.")

/-- The source's `smartCast(obj)`: infer a `BertObj` for an untagged value.
The `type == 'array'` branch is kept although it is dead code in JS, because
`typeof` never returns "array" (arrays fall through to the "object" branch
and become Maps). -/
def smartCast (obj : JsValue) : Except JsErr BertObj :=
  match obj with
  | .jnull | .undef => .ok mkNil
  | _ =>
    let type := jsTypeof obj
    if type = "number" then
      match obj with
      | .num q => if q.den = 1 then .ok (mkInt obj) else .ok (mkFloat obj)
      | _ => .ok (mkFloat obj)
    else if type = "string" then .ok (mkBinary obj)
    else if type = "array" then
      match obj with
      | .arr [] => .ok mkNil
      | _ => mkList obj
    else if type = "object" then mkMap obj
    else .error (.thrown ("Invalid object type: " ++ type ++ ". Cannot encode."))

/-- One step of the loop in the source's `encodeNum`: for the current offset
`(k-1)*8` push `num >> offset` and subtract `value << offset` from `num`. -/
def encodeNumGo (num : ℚ) : Nat → List Int → List Int
  | 0, buffer => buffer
  | k + 1, buffer =>
    let value := jsShrQ num (k * 8)
    encodeNumGo (num - ((jsShlI value (k * 8) : Int) : ℚ)) k (buffer ++ [value])

/-- The source's `encodeNum(num, byteLength, buffer)`: big-endian fixed-width
integer write by repeated shifting. -/
def encodeNum (num : ℚ) (byteLength : Nat) (buffer : List Int) : List Int :=
  encodeNumGo num byteLength buffer

/-- The source's `encodeStringToBuffer(str, buffer)`: push every
`charCodeAt(i)` for `i` below the string's length. -/
def encodeStringToBuffer (s : List Nat) (buffer : List Int) : List Int :=
  buffer ++ s.map Int.ofNat

/-- The source's `encodeNil(data, buffer)` (the data argument is unused). -/
def encodeNil (buffer : List Int) : List Int :=
  buffer ++ [106]

/-- The source's `encodeAtom(data, buffer)`: guard the length, then push tag
100, a fixed 0 high length byte, the length byte, and the character codes. -/
def encodeAtom (data : JsValue) (buffer : List Int) : Except JsErr (List Int) :=
  match data with
  | .str s =>
    if 256 ≤ s.length then .error (.thrown "Atoms may only be up to 255 bytes.")
    else .ok (encodeStringToBuffer s (buffer ++ [100, 0, (s.length : Int)]))
  | _ => .error (.unmodelled "encodeAtom payload")

/-- The source's `encodeBinary(data, buffer)`: tag 109, a 4-byte length, then
the character codes. -/
def encodeBinary (data : JsValue) (buffer : List Int) : Except JsErr (List Int) :=
  match data with
  | .str s =>
    if fourByteMaxNumber < (s.length : ℚ) then .error maxNumberError
    else .ok (encodeStringToBuffer s (encodeNum (s.length : ℚ) 4 (buffer ++ [109])))
  | _ => .error (.unmodelled "encodeBinary payload")

/-- Floor of log base 2 of a positive rational. -/
def ratLog2 (a : ℚ) : Int :=
  let e0 : Int := (a.num.natAbs.log2 : Int) - (a.den.log2 : Int)
  if (2 : ℚ) ^ e0 ≤ a then e0 else e0 - 1

/-- IEEE-754 binary64 bit pattern of a finite rational (sign, biased
exponent, mantissa), with rounding modelled as truncation toward zero;
values past the representable range clamp to the infinity pattern.  The
source obtains these bits from the host `Float64Array` representation. -/
def f64bits (q : ℚ) : Nat :=
  if q = 0 then 0
  else
    let s : Nat := if q < 0 then 1 else 0
    let a : ℚ := |q|
    let e : Int := ratLog2 a
    if 1024 ≤ e then s * 2 ^ 63 + 2047 * 2 ^ 52
    else if -1022 ≤ e then
      let m : Nat := (⌊a * (2 : ℚ) ^ (52 - e)⌋).toNat - 2 ^ 52
      s * 2 ^ 63 + (e + 1023).toNat * 2 ^ 52 + min m (2 ^ 52 - 1)
    else
      let m : Nat := (⌊a * (2 : ℚ) ^ (1074 : ℤ)⌋).toNat
      s * 2 ^ 63 + min m (2 ^ 52 - 1)

/-- Big-endian bytes of an IEEE-754 binary64 bit pattern. -/
def f64bytesBE (bits : Nat) : List Int :=
  (List.range 8).map fun i => (Int.ofNat (bits / 2 ^ ((7 - i) * 8) % 256))

/-- The source's `encodeNewFloat(num, buffer)`: tag 70 followed by the 8
bytes of the double, written most-significant byte first (the source fills a
little-endian `Uint8Array` and pushes it in reverse). -/
def encodeNewFloat (data : JsValue) (buffer : List Int) : Except JsErr (List Int) :=
  match data with
  | .num q => .ok (buffer ++ 70 :: f64bytesBE (f64bits q))
  | .nan => .ok (buffer ++ 70 :: f64bytesBE (2047 * 2 ^ 52 + 2 ^ 51))
  | .inf neg => .ok (buffer ++ 70 :: f64bytesBE ((if neg then 2 ^ 63 else 0) + 2047 * 2 ^ 52))
  | _ => .error (.unmodelled "encodeNewFloat payload")

/-- JS indexing `v[i]` on arrays and strings (`undefined` when out of range
or on a non-indexable value). -/
def jsIndex : JsValue → Nat → JsValue
  | .arr es, i => es.getD i .undef
  | .str s, i =>
    match s.get? i with
    | some c => .str [c]
    | none => .undef
  | _, _ => .undef

mutual

/-- The source's `encodeData(obj, buffer)`: smart-cast anything that is not
already a `BertObj`, then dispatch on the type string via
`this["encode" + obj.type]`; type strings with no matching encoder raise the
runtime "is not a function" error. -/
def encodeData : Nat → JsValue → List Int → Except JsErr (List Int)
  | 0, _, _ => .error .outOfFuel
  | fuel + 1, obj, buffer => do
    let o : BertObj ← match obj with
      | .bert t v => .ok ⟨t, v⟩
      | _ => smartCast obj
    match o.type with
    | "NewFloat" => encodeNewFloat o.value buffer
    | "SmallInt" => encodeSmallInt fuel o.value buffer
    | "Int" => encodeInt fuel o.value buffer
    | "Nil" => .ok (encodeNil buffer)
    | "Atom" => encodeAtom o.value buffer
    | "String" => encodeString fuel o.value buffer
    | "List" => encodeList fuel o.value buffer
    | "Tuple" => encodeTuple fuel o.value buffer
    | "Map" => encodeMap fuel o.value buffer
    | "Binary" => encodeBinary o.value buffer
    | t => .error (.typeError ("encode" ++ t))

/-- The source's `encodeSmallInt(data, buffer)`: values above 255 fall back
to `encodeInt`, otherwise tag 97 and a 1-byte payload. -/
def encodeSmallInt : Nat → JsValue → List Int → Except JsErr (List Int)
  | 0, _, _ => .error .outOfFuel
  | fuel + 1, data, buffer =>
    match data with
    | .num q =>
      if 255 < q then encodeInt fuel data buffer
      else .ok (encodeNum q 1 (buffer ++ [97]))
    | _ => .error (.unmodelled "encodeSmallInt payload")

/-- The source's `encodeInt(data, buffer)`: values above `fourByteMaxNumber`
throw, values below 256 fall back to `encodeSmallInt`, otherwise tag 98 and
a 4-byte payload. -/
def encodeInt : Nat → JsValue → List Int → Except JsErr (List Int)
  | 0, _, _ => .error .outOfFuel
  | fuel + 1, data, buffer =>
    match data with
    | .num q =>
      if fourByteMaxNumber < q then .error maxNumberError
      else if q < 256 then encodeSmallInt fuel data buffer
      else .ok (encodeNum q 4 (buffer ++ [98]))
    | _ => .error (.unmodelled "encodeInt payload")

/-- The source's `encodeString(data, buffer)`: strings longer than 65535
fall back to `encodeList`, otherwise tag 107, a 2-byte length, and the
character codes. -/
def encodeString : Nat → JsValue → List Int → Except JsErr (List Int)
  | 0, _, _ => .error .outOfFuel
  | fuel + 1, data, buffer =>
    match data with
    | .str s =>
      if 65535 < s.length then encodeList fuel data buffer
      else .ok (encodeNum (s.length : ℚ) 2 (buffer ++ [107]) ++ s.map Int.ofNat)
    | _ => .error (.unmodelled "encodeString payload")

/-- The source's `encodeList(data, buffer)`: tag 108, a 4-byte length, each
element through `encodeData`, then a Nil terminator.  When reached from
`encodeString`'s fallback the data is a string and JS indexing hands each
element over as a one-character string. -/
def encodeList : Nat → JsValue → List Int → Except JsErr (List Int)
  | 0, _, _ => .error .outOfFuel
  | fuel + 1, data, buffer =>
    match data with
    | .arr es =>
      if fourByteMaxNumber < (es.length : ℚ) then .error maxNumberError
      else do
        let b ← encodeItems fuel es (encodeNum (es.length : ℚ) 4 (buffer ++ [108]))
        .ok (encodeNil b)
    | .str s =>
      if fourByteMaxNumber < (s.length : ℚ) then .error maxNumberError
      else do
        let b ← encodeItems fuel (s.map fun c => .str [c])
          (encodeNum (s.length : ℚ) 4 (buffer ++ [108]))
        .ok (encodeNil b)
    | _ => .error (.unmodelled "encodeList payload")

/-- The source's `encodeTuple(data, buffer)`: arity below 256 writes tag 104
with a 1-byte arity, otherwise tag 105 with a 4-byte arity, then each
element through `encodeData` (no terminator). -/
def encodeTuple : Nat → JsValue → List Int → Except JsErr (List Int)
  | 0, _, _ => .error .outOfFuel
  | fuel + 1, data, buffer =>
    match data with
    | .arr es =>
      if fourByteMaxNumber < (es.length : ℚ) then .error maxNumberError
      else if es.length < 256 then
        encodeItems fuel es (encodeNum (es.length : ℚ) 1 (buffer ++ [104]))
      else
        encodeItems fuel es (encodeNum (es.length : ℚ) 4 (buffer ++ [105]))
    | _ => .error (.unmodelled "encodeTuple payload")

/-- The source's `encodeMap(data, buffer)`: tag 116, then the array form or
the plain-object form. -/
def encodeMap : Nat → JsValue → List Int → Except JsErr (List Int)
  | 0, _, _ => .error .outOfFuel
  | fuel + 1, data, buffer =>
    if instanceofArray data then encodeMapFromArray fuel data (buffer ++ [116])
    else encodeMapFromObject fuel data (buffer ++ [116])

/-- The source's `encodeMapFromArray(data, buffer)`: a 4-byte pair count,
then `pair[0]` and `pair[1]` of each element through `encodeData`. -/
def encodeMapFromArray : Nat → JsValue → List Int → Except JsErr (List Int)
  | 0, _, _ => .error .outOfFuel
  | fuel + 1, data, buffer =>
    match data with
    | .arr pairs =>
      if fourByteMaxNumber < (pairs.length : ℚ) then .error maxNumberError
      else encodePairItems fuel pairs (encodeNum (pairs.length : ℚ) 4 buffer)
    | _ => .error (.unmodelled "encodeMapFromArray payload")

/-- The source's `encodeMapFromObject(data, buffer)`: `Object.keys` (empty
for non-objects), a 4-byte key count, then each key as a Binary and its
looked-up value through `encodeData`.  With the association-list object
model and distinct keys, iterating keys with lookup is iterating the
pairs. -/
def encodeMapFromObject : Nat → JsValue → List Int → Except JsErr (List Int)
  | 0, _, _ => .error .outOfFuel
  | fuel + 1, data, buffer =>
    let pairs := match data with
      | .jobj ps => ps
      | _ => []
    if fourByteMaxNumber < (pairs.length : ℚ) then .error maxNumberError
    else encodeKeyItems fuel pairs (encodeNum (pairs.length : ℚ) 4 buffer)

/-- The element loop of `encodeList` and `encodeTuple`. -/
def encodeItems : Nat → List JsValue → List Int → Except JsErr (List Int)
  | 0, _, _ => .error .outOfFuel
  | _ + 1, [], buffer => .ok buffer
  | fuel + 1, e :: es, buffer => do
    let b ← encodeData fuel e buffer
    encodeItems fuel es b

/-- The pair loop of `encodeMapFromArray`. -/
def encodePairItems : Nat → List JsValue → List Int → Except JsErr (List Int)
  | 0, _, _ => .error .outOfFuel
  | _ + 1, [], buffer => .ok buffer
  | fuel + 1, p :: ps, buffer => do
    let b ← encodeData fuel (jsIndex p 0) buffer
    let b2 ← encodeData fuel (jsIndex p 1) b
    encodePairItems fuel ps b2

/-- The key loop of `encodeMapFromObject`. -/
def encodeKeyItems : Nat → List (List Nat × JsValue) → List Int → Except JsErr (List Int)
  | 0, _, _ => .error .outOfFuel
  | _ + 1, [], buffer => .ok buffer
  | fuel + 1, (k, v) :: rest, buffer => do
    let b ← encodeBinary (.str k) buffer
    let b2 ← encodeData fuel v b
    encodeKeyItems fuel rest b2

end

/-- The source's `encode(obj)`: start the buffer with the marker 131 and
delegate to `encodeData`. -/
def encode (fuel : Nat) (obj : JsValue) : Except JsErr (List Int) :=
  encodeData fuel obj [131]

/-- The source's `decodeInt(data, byteLength)`: big-endian accumulation of
`byteLength` bytes via `data[i] << offset` (a 32-bit JS shift), returning
the value and the bytes after the field.  An out-of-range read is JS
`undefined`, whose shift contributes 0. -/
def decodeInt (data : List Int) (byteLength : Nat) : Int × List Int :=
  ((List.range byteLength).foldl
    (fun acc i => acc + jsShlI (data.getD i 0) ((byteLength - i - 1) * 8)) 0,
   data.drop byteLength)

/-- The source's `decodeString(data, byteLength)`: read a `byteLength`-byte
length field, split off that many bytes, and build the string from their
`fromCharCode` (an out-of-range read is `undefined`, giving the NUL
character). -/
def decodeString (data : List Int) (byteLength : Nat) : List Nat × List Int :=
  let parts := decodeInt data byteLength
  let length := parts.1
  let parts2 := split parts.2 length
  ((List.range (loopCount length)).map fun i => jsToUint16 (parts2.1.getD i 0),
   parts2.2)

/-- Decimal digit test on a character code. -/
def isDigitCode (c : Nat) : Bool := 48 ≤ c && c ≤ 57

/-- Value of a string of decimal digit codes. -/
def digitsToNat (ds : List Nat) : Nat := ds.foldl (fun a d => a * 10 + (d - 48)) 0

/-- Modelled from the JS builtin `parseFloat` used by `decodeFloat`: skip
leading whitespace, then read the longest prefix of the form optional sign,
digits, optional fraction, optional exponent; `none` models the NaN result
(no digits parsable).  The "Infinity" spellings are not modelled. -/
def jsParseFloat (s : List Nat) : Option ℚ :=
  let s := s.dropWhile fun c => c = 32 || c = 9 || c = 10 || c = 11 || c = 12 || c = 13
  let sgn : ℚ := match s with
    | 45 :: _ => -1
    | _ => 1
  let s1 := match s with
    | 45 :: rest => rest
    | 43 :: rest => rest
    | _ => s
  let intPart := s1.takeWhile isDigitCode
  let s2 := s1.dropWhile isDigitCode
  let fracPart := match s2 with
    | 46 :: rest => rest.takeWhile isDigitCode
    | _ => []
  let s3 := match s2 with
    | 46 :: rest => rest.dropWhile isDigitCode
    | _ => s2
  if intPart.isEmpty && fracPart.isEmpty then none
  else
    let mant : ℚ := (digitsToNat (intPart ++ fracPart) : ℚ) / (10 : ℚ) ^ fracPart.length
    let expVal : Int := match s3 with
      | 101 :: rest | 69 :: rest =>
        let esgn : Int := match rest with
          | 45 :: _ => -1
          | _ => 1
        let rest2 := match rest with
          | 45 :: r => r
          | 43 :: r => r
          | _ => rest
        let eds := rest2.takeWhile isDigitCode
        if eds.isEmpty then 0 else esgn * digitsToNat eds
      | _ => 0
    some (sgn * mant * (10 : ℚ) ^ expVal)

/-- The source's `decodeFloat(data)`: `decodeString(data, 31)` then
`parseFloat` on the resulting text. -/
def decodeFloat (data : List Int) : JsValue × List Int :=
  let float := decodeString data 31
  (match jsParseFloat float.1 with
   | some q => JsValue.num q
   | none => JsValue.nan,
   float.2)

/-- JS `ToUint8`, as applied when storing into a `Uint8Array`. -/
def jsToUint8 (x : Int) : Nat := (x % 256).toNat

/-- Value of an IEEE-754 binary64 bit pattern, exact for finite patterns;
exponent 2047 gives the infinities or NaN. -/
def f64ofBits (bits : Nat) : JsValue :=
  let s : ℕ := bits / 2 ^ 63
  let e : ℕ := bits / 2 ^ 52 % 2 ^ 11
  let m : ℕ := bits % 2 ^ 52
  if e = 2047 then
    if m = 0 then .inf (s = 1) else .nan
  else
    let mag : ℚ :=
      if e = 0 then (m : ℚ) / (2 : ℚ) ^ (1074 : ℤ)
      else ((2 ^ 52 + m : ℕ) : ℚ) * (2 : ℚ) ^ ((e : ℤ) - 1075)
    .num (if s = 1 then -mag else mag)

/-- The source's `decodeNewFloat(data)`: split off 8 bytes and copy them in
reverse into the host little-endian `Float64Array` buffer, i.e. read them
as a big-endian IEEE-754 double (a missing byte reads as 0). -/
def decodeNewFloat (data : List Int) : JsValue × List Int :=
  let p := split data 8
  let bits := (List.range 8).foldl
    (fun acc i => acc + jsToUint8 (p.1.getD i 0) * 2 ^ ((7 - i) * 8)) 0
  (f64ofBits bits, p.2)

/-- The source's `decodeBig(data, byteLength)`: a length field, a sign byte,
then little-endian magnitude bytes weighted by `256^i`.  JS number addition
silently loses precision beyond 2^53; the model accumulates exactly.  A read
past the available magnitude bytes (JS `undefined`, producing NaN) is
modelled as contributing 0. -/
def decodeBig (data : List Int) (byteLength : Nat) : JsValue × List Int :=
  let arity := decodeInt data byteLength
  let length := arity.1
  let sign := decodeInt arity.2 1
  let parts := split sign.2 length
  let num : Int := (List.range (loopCount length)).foldl
    (fun acc i => acc + parts.1.getD i 0 * 256 ^ i) 0
  (.num (if sign.1 ≠ 0 then -num else num), parts.2)

/-- JS string coercion of a `BertObj` instance: the class does not override
`toString`, so `"" + obj` is the default "[object Object]". -/
def bertObjToString (_o : BertObj) : List Nat := strCodes "[object Object]"

mutual

/-- JS string coercion (`ToPropertyKey`) of a decoded value, used for map
keys: numbers print in decimal (exact in the integer case; non-integral
rationals render as fractions rather than JS's shortest-double form),
arrays join their elements with commas, objects give "[object Object]". -/
def jsToStr : JsValue → List Nat
  | .undef => strCodes "undefined"
  | .jnull => strCodes "null"
  | .bool b => if b then strCodes "true" else strCodes "false"
  | .num q => if q.den = 1 then strCodes (toString q.num) else strCodes (toString q)
  | .nan => strCodes "NaN"
  | .inf neg => if neg then strCodes "-Infinity" else strCodes "Infinity"
  | .str s => s
  | .arr es => jsToStrList es
  | .jobj _ => strCodes "[object Object]"
  | .bert _ _ => strCodes "[object Object]"

/-- Array-to-string: elements joined with commas. -/
def jsToStrList : List JsValue → List Nat
  | [] => []
  | [e] => jsToStr e
  | e :: es => jsToStr e ++ 44 :: jsToStrList es

end

mutual

/-- The source's `decodeData(data)`: read one tag byte, look its type up in
`BERT_TOKENS`, dispatch via `this["decode" + type]`, and wrap the result in
a `BertObj` (the source's `handleResult`).  A byte absent from the registry
makes the dispatch look up `this["decodeundefined"]`, and a registry type
with no decode routine ("start", "BitString") likewise hits a missing
method: both raise the runtime "is not a function" TypeError rather than an
explicit throw. -/
def decodeData : Nat → List Int → Except JsErr (BertObj × List Int)
  | 0, _ => .error .outOfFuel
  | fuel + 1, data =>
    match data with
    | [] => .error (.typeError "decodeundefined")
    | token :: rest =>
      match BERT_TOKENS token with
      | none => .error (.typeError "decodeundefined")
      | some type =>
        match type with
        | "NewFloat" => let r := decodeNewFloat rest; .ok (⟨type, r.1⟩, r.2)
        | "SmallInt" => let r := decodeInt rest 1; .ok (⟨type, .num (r.1 : ℚ)⟩, r.2)
        | "Int" => let r := decodeInt rest 4; .ok (⟨type, .num (r.1 : ℚ)⟩, r.2)
        | "Float" => let r := decodeFloat rest; .ok (⟨type, r.1⟩, r.2)
        | "Atom" => let r := decodeString rest 2; .ok (⟨type, .str r.1⟩, r.2)
        | "Port" => do
          let r ← decodePort fuel rest
          .ok (⟨type, r.1⟩, r.2)
        | "Pid" => do
          let r ← decodePid fuel rest
          .ok (⟨type, r.1⟩, r.2)
        | "SmallTuple" => do
          let r ← decodeTuple fuel rest 1
          .ok (⟨type, r.1⟩, r.2)
        | "Tuple" => do
          let r ← decodeTuple fuel rest 4
          .ok (⟨type, r.1⟩, r.2)
        | "Nil" => .ok (⟨type, .arr []⟩, rest)
        | "String" => let r := decodeString rest 2; .ok (⟨type, .str r.1⟩, r.2)
        | "List" => do
          let r ← decodeList fuel rest
          .ok (⟨type, r.1⟩, r.2)
        | "Binary" => let r := decodeString rest 4; .ok (⟨type, .str r.1⟩, r.2)
        | "SmallBig" => let r := decodeBig rest 1; .ok (⟨type, r.1⟩, r.2)
        | "Big" => let r := decodeBig rest 4; .ok (⟨type, r.1⟩, r.2)
        | "SmallAtom" => let r := decodeString rest 1; .ok (⟨type, .str r.1⟩, r.2)
        | "Map" => do
          let r ← decodeMap fuel rest
          .ok (⟨type, r.1⟩, r.2)
        | "AtomUtf8" => let r := decodeString rest 2; .ok (⟨type, .str r.1⟩, r.2)
        | "SmallAtomUtf8" => let r := decodeString rest 1; .ok (⟨type, .str r.1⟩, r.2)
        | _ => .error (.typeError ("decode" ++ type))

/-- The source's `decodePort(data)`: an inner term through `decodeData`, a
4-byte id and a 1-byte creation; the result string concatenates the inner
`BertObj` itself (not its value) with the id in angle brackets. -/
def decodePort : Nat → List Int → Except JsErr (JsValue × List Int)
  | 0, _ => .error .outOfFuel
  | fuel + 1, data => do
    let atom ← decodeData fuel data
    let id := decodeInt atom.2 4
    let creation := decodeInt id.2 1
    .ok (.str (bertObjToString atom.1 ++ strCodes "<" ++ strCodes (toString id.1)
          ++ strCodes ">"), creation.2)

/-- The source's `decodePid(data)`: like `decodePort` with an extra 4-byte
serial before the 1-byte creation. -/
def decodePid : Nat → List Int → Except JsErr (JsValue × List Int)
  | 0, _ => .error .outOfFuel
  | fuel + 1, data => do
    let atom ← decodeData fuel data
    let id := decodeInt atom.2 4
    let serial := decodeInt id.2 4
    let creation := decodeInt serial.2 1
    .ok (.str (bertObjToString atom.1 ++ strCodes "<" ++ strCodes (toString id.1)
          ++ strCodes ">"), creation.2)

/-- The source's `decodeTuple(data, byteLength)`: an arity field then that
many elements through `decodeData`, collecting each element's value. -/
def decodeTuple : Nat → List Int → Nat → Except JsErr (JsValue × List Int)
  | 0, _, _ => .error .outOfFuel
  | fuel + 1, data, byteLength => do
    let parts := decodeInt data byteLength
    let r ← decodeElems fuel (loopCount parts.1) parts.2
    .ok (.arr r.1, r.2)

/-- The source's `decodeList(data)`: a 4-byte length, that many elements,
then one further term which must decode as Nil or the parse throws. -/
def decodeList : Nat → List Int → Except JsErr (JsValue × List Int)
  | 0, _ => .error .outOfFuel
  | fuel + 1, data => do
    let parts := decodeInt data 4
    let r ← decodeElems fuel (loopCount parts.1) parts.2
    let removenil ← decodeData fuel r.2
    if removenil.1.type ≠ "Nil" then
      .error (.thrown "Lists parsed by this tool are expected to end properly, with a nil terminator.")
    else
      .ok (.arr r.1, removenil.2)

/-- The source's `decodeMap(data)`: a 4-byte arity then that many key/value
pairs.  JS object assignment would overwrite duplicate keys; the model keeps
the pairs in order. -/
def decodeMap : Nat → List Int → Except JsErr (JsValue × List Int)
  | 0, _ => .error .outOfFuel
  | fuel + 1, data => do
    let parts := decodeInt data 4
    let r ← decodePairs fuel (loopCount parts.1) parts.2
    .ok (.jobj r.1, r.2)

/-- The element loop of `decodeTuple` and `decodeList`. -/
def decodeElems : Nat → Nat → List Int → Except JsErr (List JsValue × List Int)
  | 0, _, _ => .error .outOfFuel
  | _ + 1, 0, data => .ok ([], data)
  | fuel + 1, n + 1, data => do
    let parts ← decodeData fuel data
    let r ← decodeElems fuel n parts.2
    .ok (parts.1.value :: r.1, r.2)

/-- The pair loop of `decodeMap`; keys pass through JS property-key string
coercion. -/
def decodePairs : Nat → Nat → List Int → Except JsErr (List (List Nat × JsValue) × List Int)
  | 0, _, _ => .error .outOfFuel
  | _ + 1, 0, data => .ok ([], data)
  | fuel + 1, n + 1, data => do
    let kr ← decodeData fuel data
    let vr ← decodeData fuel kr.2
    let r ← decodePairs fuel n vr.2
    .ok ((jsToStr kr.1.value, vr.1.value) :: r.1, r.2)

end

/-- The source's `decode(data)`: fail unless the first byte looks up to
"start" in the registry, then decode one term and unwrap its value.  On
empty input the JS reads `undefined` as the first token and throws the same
message. -/
def decode (fuel : Nat) (data : List Int) : Except JsErr JsValue :=
  match data with
  | [] => .error (.thrown
      "Data must begin with an appropriate start token, actually starts with undefined")
  | token :: rest =>
    if BERT_TOKENS token ≠ some "start" then
      .error (.thrown
        ("Data must begin with an appropriate start token, actually starts with "
          ++ toString token))
    else
      (decodeData fuel rest).map fun r => r.1.value

/-!  Arithmetic facts about the 32-bit JS primitives, used to reason about
`encodeNum` and `decodeInt` on in-range values. -/

theorem except_ok_bind {α β : Type} (a : α) (f : α → Except JsErr β) :
    (Except.ok a : Except JsErr α) >>= f = f a := rfl

theorem except_error_bind {α β : Type} (e : JsErr) (f : α → Except JsErr β) :
    (Except.error e : Except JsErr α) >>= f = .error e := rfl

theorem BERT_TOKENS_eq_start {b : Int} : BERT_TOKENS b = some "start" ↔ b = 131 := by
  constructor
  · intro h
    unfold BERT_TOKENS at h
    split at h <;> simp_all
  · rintro rfl
    rfl

theorem toUint32_of_lt {n : Int} (h0 : 0 ≤ n) (h : n < 4294967296) :
    (toUint32 n : Int) = n := by
  unfold toUint32
  omega

theorem toInt32_of_lt {n : Int} (h0 : 0 ≤ n) (h : n < 2147483648) :
    toInt32 n = n := by
  unfold toInt32 toUint32
  split <;> omega

theorem ratTrunc_intCast (n : Int) : ratTrunc (n : ℚ) = n := by
  unfold ratTrunc
  rw [Rat.num_intCast, Rat.den_intCast]
  split <;> omega

theorem jsToInt32_intCast {n : Int} (h0 : 0 ≤ n) (h : n < 2147483648) :
    jsToInt32 (n : ℚ) = n := by
  unfold jsToInt32
  rw [ratTrunc_intCast, toInt32_of_lt h0 h]

theorem jsShlI_small {a : Int} {k : Nat} (h0 : 0 ≤ a) (hk : k < 32)
    (h : a * 2 ^ k < 2147483648) : jsShlI a k = a * 2 ^ k := by
  have h2 : (0 : Int) < 2 ^ k := by positivity
  have ha : a < 2147483648 := by nlinarith
  unfold jsShlI
  rw [Nat.mod_eq_of_lt hk, toInt32_of_lt h0 ha,
    toInt32_of_lt (by positivity) h]

theorem jsShrQ_intCast {a : Int} {k : Nat} (h0 : 0 ≤ a) (hk : k < 32)
    (h : a < 2147483648) : jsShrQ (a : ℚ) k = a / 2 ^ k := by
  unfold jsShrQ
  rw [jsToInt32_intCast h0 h, Nat.mod_eq_of_lt hk,
    Int.fdiv_eq_ediv _ (by positivity)]

theorem encodeNumGo_step {v : Int} {k : Nat} (h0 : 0 ≤ v) (hk : k * 8 < 32)
    (hv : v < 2147483648) (buffer : List Int) :
    encodeNumGo (v : ℚ) (k + 1) buffer =
      encodeNumGo ((v % 2 ^ (k * 8) : ℤ) : ℚ) k (buffer ++ [v / 2 ^ (k * 8)]) := by
  have hdm : v / 2 ^ (k * 8) * 2 ^ (k * 8) ≤ v := Int.ediv_mul_le v (by positivity)
  have hd0 : 0 ≤ v / 2 ^ (k * 8) := Int.ediv_nonneg h0 (by positivity)
  have h1 : jsShrQ (v : ℚ) (k * 8) = v / 2 ^ (k * 8) := jsShrQ_intCast h0 hk hv
  have h2 : jsShlI (v / 2 ^ (k * 8)) (k * 8) = v / 2 ^ (k * 8) * 2 ^ (k * 8) :=
    jsShlI_small hd0 hk (lt_of_le_of_lt hdm hv)
  show encodeNumGo ((v : ℚ) - ((jsShlI (jsShrQ (v : ℚ) (k * 8)) (k * 8) : Int) : ℚ)) k
      (buffer ++ [jsShrQ (v : ℚ) (k * 8)]) = _
  rw [h1, h2]
  congr 1
  rw [Int.emod_def]
  push_cast
  ring

theorem encodeNum_four {v : Int} (h0 : 0 ≤ v) (h : v < 268435456)
    (buffer : List Int) :
    encodeNum (v : ℚ) 4 buffer =
      buffer ++ [v / 16777216, v % 16777216 / 65536, v % 65536 / 256, v % 256] := by
  have e0 : (0 : ℤ) ≤ v % 2 ^ 24 := Int.emod_nonneg _ (by norm_num)
  have e0' : v % 2 ^ 24 < 2147483648 :=
    lt_of_lt_of_le (Int.emod_lt_of_pos _ (by norm_num)) (by norm_num)
  have e1 : (0 : ℤ) ≤ v % 2 ^ 24 % 2 ^ 16 := Int.emod_nonneg _ (by norm_num)
  have e1' : v % 2 ^ 24 % 2 ^ 16 < 2147483648 :=
    lt_of_lt_of_le (Int.emod_lt_of_pos _ (by norm_num)) (by norm_num)
  have e2 : (0 : ℤ) ≤ v % 2 ^ 24 % 2 ^ 16 % 2 ^ 8 := Int.emod_nonneg _ (by norm_num)
  have e2' : v % 2 ^ 24 % 2 ^ 16 % 2 ^ 8 < 2147483648 :=
    lt_of_lt_of_le (Int.emod_lt_of_pos _ (by norm_num)) (by norm_num)
  unfold encodeNum
  calc encodeNumGo (v : ℚ) 4 buffer
      = encodeNumGo ((v % 2 ^ 24 : ℤ) : ℚ) 3 (buffer ++ [v / 2 ^ 24]) :=
        encodeNumGo_step h0 (by norm_num) (by omega) buffer
    _ = encodeNumGo ((v % 2 ^ 24 % 2 ^ 16 : ℤ) : ℚ) 2
          (buffer ++ [v / 2 ^ 24] ++ [v % 2 ^ 24 / 2 ^ 16]) :=
        encodeNumGo_step e0 (by norm_num) e0' _
    _ = encodeNumGo ((v % 2 ^ 24 % 2 ^ 16 % 2 ^ 8 : ℤ) : ℚ) 1
          (buffer ++ [v / 2 ^ 24] ++ [v % 2 ^ 24 / 2 ^ 16]
            ++ [v % 2 ^ 24 % 2 ^ 16 / 2 ^ 8]) :=
        encodeNumGo_step e1 (by norm_num) e1' _
    _ = encodeNumGo ((v % 2 ^ 24 % 2 ^ 16 % 2 ^ 8 % 2 ^ 0 : ℤ) : ℚ) 0
          (buffer ++ [v / 2 ^ 24] ++ [v % 2 ^ 24 / 2 ^ 16]
            ++ [v % 2 ^ 24 % 2 ^ 16 / 2 ^ 8]
            ++ [v % 2 ^ 24 % 2 ^ 16 % 2 ^ 8 / 2 ^ 0]) :=
        encodeNumGo_step e2 (by norm_num) e2' _
    _ = buffer ++ [v / 16777216, v % 16777216 / 65536, v % 65536 / 256, v % 256] := by
        show buffer ++ _ ++ _ ++ _ ++ _ = _
        simp only [List.append_assoc, List.singleton_append, List.cons_append,
          List.nil_append]
        congr 1
        norm_num

theorem encodeNum_one {v : Int} (h0 : 0 ≤ v) (h : v < 2147483648)
    (buffer : List Int) :
    encodeNum (v : ℚ) 1 buffer = buffer ++ [v] := by
  unfold encodeNum
  calc encodeNumGo (v : ℚ) 1 buffer
      = encodeNumGo ((v % 2 ^ 0 : ℤ) : ℚ) 0 (buffer ++ [v / 2 ^ 0]) :=
        encodeNumGo_step h0 (by norm_num) h buffer
    _ = buffer ++ [v] := by
        show buffer ++ _ = _
        norm_num

theorem decodeInt_four {b3 b2 b1 b0 : Int} (rest : List Int)
    (g3 : 0 ≤ b3) (l3 : b3 < 128) (g2 : 0 ≤ b2) (l2 : b2 < 256)
    (g1 : 0 ≤ b1) (l1 : b1 < 256) (g0 : 0 ≤ b0) (l0 : b0 < 256) :
    decodeInt (b3 :: b2 :: b1 :: b0 :: rest) 4 =
      (b3 * 16777216 + b2 * 65536 + b1 * 256 + b0, rest) := by
  unfold decodeInt
  rw [show List.range 4 = [0, 1, 2, 3] from rfl]
  simp only [List.foldl, List.getD, List.get?, Option.getD_some, List.drop]
  norm_num
  rw [jsShlI_small g3 (by norm_num) (by norm_num; omega),
    jsShlI_small g2 (by norm_num) (by norm_num; omega),
    jsShlI_small g1 (by norm_num) (by norm_num; omega),
    jsShlI_small g0 (by norm_num) (by norm_num; omega)]
  norm_num

theorem decodeInt_one {b0 : Int} (rest : List Int)
    (g0 : 0 ≤ b0) (l0 : b0 < 2147483648) :
    decodeInt (b0 :: rest) 1 = (b0, rest) := by
  unfold decodeInt
  rw [show List.range 1 = [0] from rfl]
  simp only [List.foldl, List.getD, List.get?, Option.getD_some, List.drop]
  norm_num
  rw [jsShlI_small g0 (by norm_num) (by norm_num; omega)]
  norm_num

/-- C1: for every integer v with 0 ≤ v ≤ 2^27 − 1, decoding the bytes
produced by `encode(Bert.Int(v))` returns v. -/
theorem c1_decode_encode_int (v : Int) (h0 : 0 ≤ v) (h1 : v ≤ 134217727) :
    (encode 9 (BertObj.toJsValue (mkInt (.num (v : ℚ))))).bind (decode 9) =
      .ok (.num (v : ℚ)) := by
  have hq1 : ¬ fourByteMaxNumber < (v : ℚ) := by
    unfold fourByteMaxNumber
    exact_mod_cast not_lt.mpr h1
  have hstep : encode 9 (BertObj.toJsValue (mkInt (.num (v : ℚ)))) =
      encodeInt 8 (.num (v : ℚ)) [131] := rfl
  rcases lt_or_ge v 256 with hlt | hge
  · have hq2 : ((v : ℚ)) < 256 := by exact_mod_cast hlt
    have hq3 : ¬ (255 : ℚ) < (v : ℚ) := by
      rw [not_lt]
      exact_mod_cast (by omega : v ≤ 255)
    rw [hstep]
    simp only [encodeInt, encodeSmallInt]
    rw [if_neg hq1, if_pos hq2, if_neg hq3]
    rw [encodeNum_one h0 (by omega)]
    show decode 9 [131, 97, v] = _
    simp only [decode, BERT_TOKENS]
    norm_num
    simp only [decodeData]
    rw [decodeInt_one [] h0 (by omega)]
    rfl
  · have hq2 : ¬ ((v : ℚ)) < 256 := by
      rw [not_lt]
      exact_mod_cast hge
    rw [hstep]
    simp only [encodeInt]
    rw [if_neg hq1, if_neg hq2]
    rw [encodeNum_four h0 (by omega)]
    show decode 9 [131, 98, v / 16777216, v % 16777216 / 65536,
      v % 65536 / 256, v % 256] = _
    simp only [decode, BERT_TOKENS]
    norm_num
    simp only [decodeData]
    rw [decodeInt_four [] (by omega) (by omega) (by omega) (by omega)
      (by omega) (by omega) (by omega) (by omega)]
    have hv : v / 16777216 * 16777216 + v % 16777216 / 65536 * 65536
        + v % 65536 / 256 * 256 + v % 256 = v := by omega
    show Except.ok (JsValue.num ((v / 16777216 * 16777216 + v % 16777216 / 65536 * 65536
        + v % 65536 / 256 * 256 + v % 256 : ℤ) : ℚ)) = Except.ok (.num (v : ℚ))
    rw [hv]

/-- Witness for `c1_decode_encode_int` at v = 300 (the 4-byte Int path). -/
theorem c1_decode_encode_int_witness :
    (0 : ℤ) ≤ 300 ∧ (300 : ℤ) ≤ 134217727 ∧
      (encode 9 (BertObj.toJsValue (mkInt (.num ((300 : ℤ) : ℚ))))).bind (decode 9) =
        .ok (.num ((300 : ℤ) : ℚ)) :=
  ⟨by decide, by decide, c1_decode_encode_int 300 (by decide) (by decide)⟩

/-- C2: `decode` fails with the thrown start-marker error whenever the first
byte is not 131, and with first byte 131 it proceeds to decode the remaining
bytes. -/
theorem c2_decode_start_marker (fuel : Nat) (b : Int) (rest : List Int) :
    (b ≠ 131 → decode fuel (b :: rest) = .error (.thrown
      ("Data must begin with an appropriate start token, actually starts with "
        ++ toString b))) ∧
    decode fuel (131 :: rest) = (decodeData fuel rest).map fun r => r.1.value := by
  constructor
  · intro hb
    have hs : BERT_TOKENS b ≠ some "start" := fun h => hb (BERT_TOKENS_eq_start.mp h)
    simp only [decode]
    rw [if_pos hs]
  · simp only [decode]
    rw [if_neg (by simp [BERT_TOKENS_eq_start])]

/-- Witness for `c2_decode_start_marker` at first byte 42. -/
theorem c2_decode_start_marker_witness :
    decode 9 [42, 97, 1] = .error (.thrown
      ("Data must begin with an appropriate start token, actually starts with "
        ++ toString (42 : Int))) ∧
    decode 9 [131, 97, 1] = (decodeData 9 [97, 1]).map fun r => r.1.value :=
  ⟨(c2_decode_start_marker 9 42 [97, 1]).1 (by decide),
   (c2_decode_start_marker 9 42 [97, 1]).2⟩

/-- C3: while decoding a List term, after the 4-byte element count and the
counted elements, the next term must decode as Nil: a non-Nil terminator
makes `decodeList` fail with the thrown terminator error (no partial
result), and a Nil terminator lets it succeed with the collected
elements. -/
theorem c3_list_nil_terminator (fuel : Nat) (data : List Int)
    (vs : List JsValue) (rest rest2 : List Int) (obj : BertObj)
    (helems : decodeElems fuel (loopCount (decodeInt data 4).1) (decodeInt data 4).2
      = .ok (vs, rest))
    (hterm : decodeData fuel rest = .ok (obj, rest2)) :
    (obj.type ≠ "Nil" → decodeList (fuel + 1) data = .error (.thrown
      "Lists parsed by this tool are expected to end properly, with a nil terminator.")) ∧
    (obj.type = "Nil" → decodeList (fuel + 1) data = .ok (.arr vs, rest2)) := by
  constructor
  · intro hne
    simp only [decodeList, helems, hterm, except_ok_bind]
    rw [if_pos hne]
  · intro heq
    simp only [decodeList, helems, hterm, except_ok_bind]
    rw [if_neg (by simp [heq])]

/-- Witness for `c3_list_nil_terminator`: a one-element list followed by a
SmallInt where Nil is required (failure), and by a true Nil (success). -/
theorem c3_list_nil_terminator_witness :
    decodeList 6 [0, 0, 0, 1, 97, 5, 97, 9] = .error (.thrown
      "Lists parsed by this tool are expected to end properly, with a nil terminator.") ∧
    decodeList 6 [0, 0, 0, 1, 97, 5, 106, 7] = .ok (.arr [.num 5], [7]) :=
  ⟨(c3_list_nil_terminator 5 [0, 0, 0, 1, 97, 5, 97, 9] [.num 5] [97, 9] []
      ⟨"SmallInt", .num 9⟩ rfl rfl).1 (by decide),
   (c3_list_nil_terminator 5 [0, 0, 0, 1, 97, 5, 106, 7] [.num 5] [106, 7] [7]
      ⟨"Nil", .arr []⟩ rfl rfl).2 rfl⟩

/-- C9: encoding an Atom of 256 or more characters throws before writing any
atom bytes; an Atom of at most 255 characters writes tag 100, a high length
byte fixed to 0, the length byte, then the character codes. -/
theorem c9_encode_atom (s : List Nat) (buffer : List Int) :
    (256 ≤ s.length → encodeAtom (.str s) buffer =
      .error (.thrown "Atoms may only be up to 255 bytes.")) ∧
    (s.length ≤ 255 → encodeAtom (.str s) buffer =
      .ok (buffer ++ [100, 0, (s.length : Int)] ++ s.map Int.ofNat)) := by
  constructor
  · intro h
    simp only [encodeAtom]
    rw [if_pos h]
  · intro h
    simp only [encodeAtom, encodeStringToBuffer]
    rw [if_neg (by omega)]

/-- Witness for `c9_encode_atom`: a 256-character atom fails, "ok" encodes. -/
theorem c9_encode_atom_witness :
    encodeAtom (.str (List.replicate 256 97)) [] =
      .error (.thrown "Atoms may only be up to 255 bytes.") ∧
    encodeAtom (.str (strCodes "ok")) [131] =
      .ok ([131] ++ [100, 0, ((strCodes "ok").length : Int)]
        ++ (strCodes "ok").map Int.ofNat) :=
  ⟨(c9_encode_atom _ _).1 (by rw [List.length_replicate]),
   (c9_encode_atom _ _).2 (by decide)⟩

/-!  Frame ("append-only buffer") machinery for the encoder. -/

theorem map_map_append (x : Except JsErr (List Int)) (b c : List Int) :
    (x.map (fun z => c ++ z)).map (fun z => b ++ z) = x.map (fun z => (b ++ c) ++ z) := by
  cases x <;> simp [Except.map, List.append_assoc]

theorem frame_bind {g h : List Int → Except JsErr (List Int)}
    (hg : ∀ b, g b = (g []).map (fun z => b ++ z))
    (hh : ∀ b, h b = (h []).map (fun z => b ++ z)) (b c : List Int) :
    Bind.bind (g (b ++ c)) h = (Bind.bind (g c) h).map (fun z => b ++ z) := by
  rw [hg (b ++ c), hg c]
  cases hgd : g [] with
  | error e => rfl
  | ok d =>
    show h (b ++ c ++ d) = (h (c ++ d)).map (fun z => b ++ z)
    rw [List.append_assoc b c d, hh (b ++ (c ++ d)), hh (c ++ d), map_map_append]

theorem frame_bind_nil {g h : List Int → Except JsErr (List Int)}
    (hg : ∀ b, g b = (g []).map (fun z => b ++ z))
    (hh : ∀ b, h b = (h []).map (fun z => b ++ z)) (b : List Int) :
    Bind.bind (g b) h = (Bind.bind (g []) h).map (fun z => b ++ z) := by
  have := frame_bind hg hh b []
  simpa using this

theorem encodeNumGo_append (num : ℚ) (k : Nat) :
    ∀ buffer, encodeNumGo num k buffer = buffer ++ encodeNumGo num k [] := by
  induction k generalizing num with
  | zero => intro buffer; simp [encodeNumGo]
  | succ k ih =>
    intro buffer
    show encodeNumGo _ k (buffer ++ [_]) = buffer ++ encodeNumGo _ k ([] ++ [_])
    rw [ih, ih _ ([] ++ [_])]
    simp [List.append_assoc]

theorem encodeNum_append (q : ℚ) (k : Nat) (b c : List Int) :
    encodeNum q k (b ++ c) = b ++ encodeNum q k c := by
  unfold encodeNum
  rw [encodeNumGo_append q k (b ++ c), encodeNumGo_append q k c, List.append_assoc]

theorem encodeNil_append (b c : List Int) : encodeNil (b ++ c) = b ++ encodeNil c := by
  simp [encodeNil]

theorem encodeStringToBuffer_append (s : List Nat) (b c : List Int) :
    encodeStringToBuffer s (b ++ c) = b ++ encodeStringToBuffer s c := by
  simp [encodeStringToBuffer]

theorem encodeAtom_frame (v : JsValue) (b : List Int) :
    encodeAtom v b = (encodeAtom v []).map (fun z => b ++ z) := by
  cases v <;> try rfl
  case str s =>
    simp only [encodeAtom]
    split_ifs with h
    · rfl
    · simp [encodeStringToBuffer, Except.map, List.append_assoc]

theorem encodeBinary_frame (v : JsValue) (b : List Int) :
    encodeBinary v b = (encodeBinary v []).map (fun z => b ++ z) := by
  cases v <;> try rfl
  case str s =>
    simp only [encodeBinary]
    split_ifs with h
    · rfl
    · show Except.ok (encodeStringToBuffer s (encodeNum _ 4 (b ++ [109]))) = _
      rw [show (b ++ [109] : List Int) = b ++ ([] ++ [109]) by simp]
      rw [encodeNum_append, encodeStringToBuffer_append]
      rfl

theorem encodeNewFloat_frame (v : JsValue) (b : List Int) :
    encodeNewFloat v b = (encodeNewFloat v []).map (fun z => b ++ z) := by
  cases v <;> simp [encodeNewFloat, Except.map]

theorem frame_shift {g : List Int → Except JsErr (List Int)}
    (hg : ∀ b, g b = (g []).map (fun z => b ++ z)) (b c : List Int) :
    g (b ++ c) = (g c).map (fun z => b ++ z) := by
  rw [hg (b ++ c), hg c, map_map_append]

theorem encodeNum_append0 (q : ℚ) (k : Nat) (b : List Int) :
    encodeNum q k b = b ++ encodeNum q k [] :=
  encodeNumGo_append q k b

/-- Joint frame property of every fueled encoder function: running on a
buffer b produces exactly b followed by the bytes produced on the empty
buffer (and the same error otherwise). -/
theorem encode_append_frame : ∀ fuel : Nat,
    (∀ v b, encodeData fuel v b = (encodeData fuel v []).map (fun z => b ++ z)) ∧
    (∀ v b, encodeSmallInt fuel v b = (encodeSmallInt fuel v []).map (fun z => b ++ z)) ∧
    (∀ v b, encodeInt fuel v b = (encodeInt fuel v []).map (fun z => b ++ z)) ∧
    (∀ v b, encodeString fuel v b = (encodeString fuel v []).map (fun z => b ++ z)) ∧
    (∀ v b, encodeList fuel v b = (encodeList fuel v []).map (fun z => b ++ z)) ∧
    (∀ v b, encodeTuple fuel v b = (encodeTuple fuel v []).map (fun z => b ++ z)) ∧
    (∀ v b, encodeMap fuel v b = (encodeMap fuel v []).map (fun z => b ++ z)) ∧
    (∀ v b, encodeMapFromArray fuel v b = (encodeMapFromArray fuel v []).map (fun z => b ++ z)) ∧
    (∀ v b, encodeMapFromObject fuel v b = (encodeMapFromObject fuel v []).map (fun z => b ++ z)) ∧
    (∀ es b, encodeItems fuel es b = (encodeItems fuel es []).map (fun z => b ++ z)) ∧
    (∀ ps b, encodePairItems fuel ps b = (encodePairItems fuel ps []).map (fun z => b ++ z)) ∧
    (∀ ks b, encodeKeyItems fuel ks b = (encodeKeyItems fuel ks []).map (fun z => b ++ z)) := by
  intro fuel
  induction fuel with
  | zero =>
    exact ⟨fun v b => rfl, fun v b => rfl, fun v b => rfl, fun v b => rfl,
      fun v b => rfl, fun v b => rfl, fun v b => rfl, fun v b => rfl,
      fun v b => rfl, fun es b => rfl, fun ps b => rfl, fun ks b => rfl⟩
  | succ fuel ih =>
    obtain ⟨ihd, ihsi, ihi, ihs, ihl, iht, ihm, ihma, ihmo, ihit, ihpi, ihki⟩ := ih
    have hnil : ∀ b : List Int, (fun b2 => (Except.ok (encodeNil b2) : Except JsErr (List Int))) b
        = ((fun b2 => (Except.ok (encodeNil b2) : Except JsErr (List Int))) []).map
          (fun z => b ++ z) := by
      intro b
      simp [encodeNil, Except.map]
    refine ⟨?_, ?_, ?_, ?_, ?_, ?_, ?_, ?_, ?_, ?_, ?_, ?_⟩
    · intro v b
      cases v with
      | undef => exact hnil b
      | jnull => exact hnil b
      | bool b' => rfl
      | num q =>
        simp only [encodeData, smartCast, jsTypeof, reduceIte, except_ok_bind]
        split_ifs with h
        · exact ihi (.num q) b
        · exact encodeNewFloat_frame (.num q) b
      | nan => exact encodeNewFloat_frame .nan b
      | inf neg => exact encodeNewFloat_frame (.inf neg) b
      | str s => exact encodeBinary_frame (.str s) b
      | arr es => exact ihm (.arr es) b
      | jobj ps => exact ihm (.jobj ps) b
      | bert t val =>
        simp only [encodeData, except_ok_bind]
        split
        · exact encodeNewFloat_frame val b
        · exact ihsi val b
        · exact ihi val b
        · simp [encodeNil, Except.map]
        · exact encodeAtom_frame val b
        · exact ihs val b
        · exact ihl val b
        · exact iht val b
        · exact ihm val b
        · exact encodeBinary_frame val b
        · rfl
    · intro v b
      cases v with
      | num q =>
        simp only [encodeSmallInt]
        split_ifs with h
        · exact ihi (.num q) b
        · rw [show (b ++ [97] : List Int) = b ++ ([] ++ [97]) by simp, encodeNum_append]
          rfl
      | undef => rfl
      | jnull => rfl
      | bool b' => rfl
      | nan => rfl
      | inf neg => rfl
      | str s => rfl
      | arr es => rfl
      | jobj ps => rfl
      | bert t' v' => rfl
    · intro v b
      cases v with
      | num q =>
        simp only [encodeInt]
        split_ifs with h h2
        · rfl
        · exact ihsi (.num q) b
        · rw [show (b ++ [98] : List Int) = b ++ ([] ++ [98]) by simp, encodeNum_append]
          rfl
      | undef => rfl
      | jnull => rfl
      | bool b' => rfl
      | nan => rfl
      | inf neg => rfl
      | str s => rfl
      | arr es => rfl
      | jobj ps => rfl
      | bert t' v' => rfl
    · intro v b
      cases v with
      | str s =>
        simp only [encodeString]
        split_ifs with h
        · exact ihl (.str s) b
        · rw [show (b ++ [107] : List Int) = b ++ ([] ++ [107]) by simp, encodeNum_append,
            List.append_assoc]
          rfl
      | undef => rfl
      | jnull => rfl
      | bool b' => rfl
      | num q => rfl
      | nan => rfl
      | inf neg => rfl
      | arr es => rfl
      | jobj ps => rfl
      | bert t' v' => rfl
    · intro v b
      cases v with
      | arr es =>
        simp only [encodeList, List.nil_append]
        split_ifs with h
        · rfl
        · rw [show (b ++ [108] : List Int) = b ++ ([] ++ [108]) by simp, encodeNum_append,
            List.nil_append]
          exact frame_bind (ihit es) hnil b _
      | str s =>
        simp only [encodeList, List.nil_append]
        split_ifs with h
        · rfl
        · rw [show (b ++ [108] : List Int) = b ++ ([] ++ [108]) by simp, encodeNum_append,
            List.nil_append]
          exact frame_bind (ihit _) hnil b _
      | undef => rfl
      | jnull => rfl
      | bool b' => rfl
      | num q => rfl
      | nan => rfl
      | inf neg => rfl
      | jobj ps => rfl
      | bert t' v' => rfl
    · intro v b
      cases v with
      | arr es =>
        simp only [encodeTuple]
        split_ifs with h h2
        · rfl
        · rw [show (b ++ [104] : List Int) = b ++ ([] ++ [104]) by simp, encodeNum_append,
            List.nil_append]
          exact frame_shift (ihit es) b _
        · rw [show (b ++ [105] : List Int) = b ++ ([] ++ [105]) by simp, encodeNum_append,
            List.nil_append]
          exact frame_shift (ihit es) b _
      | undef => rfl
      | jnull => rfl
      | bool b' => rfl
      | num q => rfl
      | nan => rfl
      | inf neg => rfl
      | str s => rfl
      | jobj ps => rfl
      | bert t' v' => rfl
    · intro v b
      simp only [encodeMap]
      split_ifs with h
      · rw [show (b ++ [116] : List Int) = b ++ ([] ++ [116]) by simp, List.nil_append]
        exact frame_shift (ihma v) b [116]
      · rw [show (b ++ [116] : List Int) = b ++ ([] ++ [116]) by simp, List.nil_append]
        exact frame_shift (ihmo v) b [116]
    · intro v b
      cases v with
      | arr pairs =>
        simp only [encodeMapFromArray]
        split_ifs with h
        · rfl
        · rw [encodeNum_append0]
          exact frame_shift (ihpi pairs) b _
      | undef => rfl
      | jnull => rfl
      | bool b' => rfl
      | num q => rfl
      | nan => rfl
      | inf neg => rfl
      | str s => rfl
      | jobj ps => rfl
      | bert t' v' => rfl
    · intro v b
      simp only [encodeMapFromObject]
      split_ifs with h
      · rfl
      · rw [encodeNum_append0]
        exact frame_shift (ihki _) b _
    · intro es b
      cases es with
      | nil => simp [encodeItems, Except.map]
      | cons e es => exact frame_bind_nil (ihd e) (ihit es) b
    · intro ps b
      cases ps with
      | nil => simp [encodePairItems, Except.map]
      | cons p ps =>
        exact frame_bind_nil (ihd (jsIndex p 0))
          (fun b' => frame_bind_nil (ihd (jsIndex p 1)) (ihpi ps) b') b
    · intro ks b
      cases ks with
      | nil => simp [encodeKeyItems, Except.map]
      | cons kv rest =>
        exact frame_bind_nil (encodeBinary_frame (.str kv.1))
          (fun b' => frame_bind_nil (ihd kv.2) (ihki rest) b') b

/-- C8: `encodeData(v, buffer)` only appends to the buffer: on success the
result is the original buffer contents unchanged, followed by exactly the
encoding of v (the bytes encodeData produces on an empty buffer), and
failures do not depend on the buffer. -/
theorem c8_encodeData_appends (fuel : Nat) (v : JsValue) (b : List Int) :
    encodeData fuel v b = (encodeData fuel v []).map (fun z => b ++ z) :=
  (encode_append_frame fuel).1 v b

/-- C4 (evaluation of the code at the failing input): JS `typeof` yields
"object" for arrays, so `smartCast` sends both the empty and a non-empty
array to Map rather than to Nil and List; the claim's other clauses hold
(null to Nil, integral number to Int, non-integral number to NewFloat, text
to Binary, plain mapping to Map, a boolean fails with the inference
error). -/
theorem c4_smartCast_array_to_map :
    jsTypeof (.arr []) = "object" ∧
    smartCast (.arr []) = .ok ⟨"Map", .arr []⟩ ∧
    smartCast (.arr [.num 1]) = .ok ⟨"Map", .arr [.num 1]⟩ ∧
    smartCast .jnull = .ok ⟨"Nil", .arr []⟩ ∧
    smartCast (.num 7) = .ok ⟨"Int", .num 7⟩ ∧
    smartCast (.num (5 / 2)) = .ok ⟨"NewFloat", .num (5 / 2)⟩ ∧
    smartCast (.str (strCodes "hi")) = .ok ⟨"Binary", .str (strCodes "hi")⟩ ∧
    smartCast (.jobj []) = .ok ⟨"Map", .jobj []⟩ ∧
    smartCast (.bool true) =
      .error (.thrown "Invalid object type: boolean. Cannot encode.") := by
  refine ⟨rfl, rfl, rfl, rfl, rfl, ?_, rfl, rfl, rfl⟩
  show (if ((5 : ℚ) / 2).den = 1 then Except.ok (mkInt (.num (5 / 2)))
      else Except.ok (mkFloat (.num (5 / 2)))) = .ok ⟨"NewFloat", .num (5 / 2)⟩
  rw [if_neg (by norm_num)]
  rfl

/-- C5: the integer 255 encodes with the SmallInt tag 97 and a 1-byte
payload while 256 encodes with the Int tag 98 and a 4-byte payload; a
255-element tuple encodes with the SmallTuple tag 104 and a 1-byte arity
while a 256-element tuple encodes with the Tuple tag 105 and a 4-byte
arity. -/
theorem encodeData_num0 (f : Nat) (b : List Int) (h : 3 ≤ f) :
    encodeData f (.num 0) b = .ok (b ++ [97, 0]) := by
  obtain ⟨g, rfl⟩ : ∃ g, f = g + 3 := ⟨f - 3, by omega⟩
  show Except.ok (encodeNum (0 : ℚ) 1 (b ++ [97])) = .ok (b ++ [97, 0])
  rw [show encodeNum (0 : ℚ) 1 (b ++ [97]) = (b ++ [97]) ++ [jsShrQ 0 0] from rfl,
    show jsShrQ 0 0 = 0 from rfl]
  simp

theorem encodeItems_zeros : ∀ (n fuel : Nat) (b : List Int), n + 3 ≤ fuel →
    encodeItems fuel (List.replicate n (.num 0)) b =
      .ok (b ++ (List.replicate n ([97, 0] : List Int)).flatten) := by
  intro n
  induction n with
  | zero =>
    intro fuel b h
    obtain ⟨g, rfl⟩ : ∃ g, fuel = g + 1 := ⟨fuel - 1, by omega⟩
    simp [encodeItems]
  | succ n ih =>
    intro fuel b h
    obtain ⟨g, rfl⟩ : ∃ g, fuel = g + 1 := ⟨fuel - 1, by omega⟩
    simp only [List.replicate_succ, encodeItems]
    rw [encodeData_num0 g b (by omega), except_ok_bind, ih g (b ++ [97, 0]) (by omega)]
    simp [List.append_assoc]

/-- One dispatch step of `encodeData` on a Tuple-tagged object, stated with
symbolic fuel so that large fuel values need not be reduced. -/
theorem encodeData_tuple_step (fuel : Nat) (val : JsValue) (b : List Int) :
    encodeData (fuel + 1) (.bert "Tuple" val) b = encodeTuple fuel val b := rfl

set_option maxRecDepth 4000 in
theorem c5_compaction_boundaries :
    encode 9 (BertObj.toJsValue (mkInt (.num 255))) = .ok [131, 97, 255] ∧
    encode 9 (BertObj.toJsValue (mkInt (.num ((256 : ℤ) : ℚ)))) = .ok [131, 98, 0, 0, 1, 0] ∧
    (encode 2000 (.bert "Tuple" (.arr (List.replicate 255 (.num 0))))).map
      (fun l => l.take 3) = .ok [131, 104, 255] ∧
    (encode 2000 (.bert "Tuple" (.arr (List.replicate 256 (.num 0))))).map
      (fun l => l.take 6) = .ok [131, 105, 0, 0, 1, 0] := by
  refine ⟨rfl, ?_, ?_, ?_⟩
  · have hstep : encode 9 (BertObj.toJsValue (mkInt (.num ((256 : ℤ) : ℚ)))) =
        encodeInt 8 (.num ((256 : ℤ) : ℚ)) [131] := rfl
    rw [hstep]
    simp only [encodeInt]
    rw [if_neg (by norm_num [fourByteMaxNumber]), if_neg (by norm_num)]
    rw [encodeNum_four (by norm_num) (by norm_num)]
    norm_num
  · simp only [encode]
    rw [show (2000 : ℕ) = 1999 + 1 from rfl, encodeData_tuple_step]
    simp only [encodeTuple, List.length_replicate]
    rw [if_neg (by norm_num [fourByteMaxNumber]), if_pos (by norm_num)]
    rw [show ((255 : ℕ) : ℚ) = ((255 : ℤ) : ℚ) from rfl,
      encodeNum_one (by norm_num) (by norm_num)]
    rw [encodeItems_zeros 255 1998 _ (by norm_num)]
    simp [Except.map, List.take_append_of_le_length]
  · simp only [encode]
    rw [show (2000 : ℕ) = 1999 + 1 from rfl, encodeData_tuple_step]
    simp only [encodeTuple, List.length_replicate]
    rw [if_neg (by norm_num [fourByteMaxNumber]), if_neg (by norm_num)]
    rw [show ((256 : ℕ) : ℚ) = ((256 : ℤ) : ℚ) from rfl]
    rw [@encodeNum_four 256 (by norm_num) (by norm_num) ([131] ++ [105])]
    norm_num
    rw [encodeItems_zeros 256 1998 _ (by norm_num)]
    simp [Except.map, List.take_append_of_le_length]

set_option maxRecDepth 4000 in
/-- C6 (evaluation of the code at the failing input): on a legitimate legacy
Float payload (31 ASCII bytes of "1.00000000000000000000e+00" padded with
NULs, followed by one further byte 106), `decodeFloat` does not consume 31
bytes and leave [106]: `decodeString(data, 31)` reads the 31 bytes as a
31-byte big-endian length field (value 4770123605 under JS 32-bit shifts)
and then consumes every remaining byte, leaving an empty remainder. -/
theorem c6_decodeFloat_misreads_length :
    strCodes "1.00000000000000000000e+00" ++ [0, 0, 0, 0, 0] =
      [49, 46, 48, 48, 48, 48, 48, 48, 48, 48, 48, 48, 48, 48, 48, 48, 48, 48,
        48, 48, 48, 48, 101, 43, 48, 48, 0, 0, 0, 0, 0] ∧
    (decodeInt [49, 46, 48, 48, 48, 48, 48, 48, 48, 48, 48, 48, 48, 48, 48, 48,
        48, 48, 48, 48, 48, 48, 101, 43, 48, 48, 0, 0, 0, 0, 0, 106] 31).1
      = 4770123605 ∧
    (decodeFloat [49, 46, 48, 48, 48, 48, 48, 48, 48, 48, 48, 48, 48, 48, 48,
        48, 48, 48, 48, 48, 48, 48, 101, 43, 48, 48, 0, 0, 0, 0, 0, 106]).2 = [] ∧
    ([49, 46, 48, 48, 48, 48, 48, 48, 48, 48, 48, 48, 48, 48, 48, 48, 48, 48,
        48, 48, 48, 48, 101, 43, 48, 48, 0, 0, 0, 0, 0, 106] : List Int).drop 31
      = [106] := by
  refine ⟨by decide, by decide, ?_, by decide⟩
  show (split (decodeInt [49, 46, 48, 48, 48, 48, 48, 48, 48, 48, 48, 48, 48,
      48, 48, 48, 48, 48, 48, 48, 48, 48, 101, 43, 48, 48, 0, 0, 0, 0, 0, 106] 31).2
    (decodeInt [49, 46, 48, 48, 48, 48, 48, 48, 48, 48, 48, 48, 48, 48, 48, 48,
      48, 48, 48, 48, 48, 48, 101, 43, 48, 48, 0, 0, 0, 0, 0, 106] 31).1).2 = []
  rw [show (decodeInt [49, 46, 48, 48, 48, 48, 48, 48, 48, 48, 48, 48, 48, 48,
      48, 48, 48, 48, 48, 48, 48, 48, 101, 43, 48, 48, 0, 0, 0, 0, 0, 106] 31).1
      = 4770123605 from by decide]
  rw [show (decodeInt [49, 46, 48, 48, 48, 48, 48, 48, 48, 48, 48, 48, 48, 48,
      48, 48, 48, 48, 48, 48, 48, 48, 101, 43, 48, 48, 0, 0, 0, 0, 0, 106] 31).2
      = [106] from by decide]
  show (if (0 : Int) ≤ 4770123605 then List.drop (4770123605 : Int).toNat [106]
      else List.drop ([106].length - min (-(4770123605 : Int)).toNat [106].length) [106]) = []
  rw [if_pos (by norm_num)]
  exact List.drop_eq_nil_of_le (by norm_num)

set_option maxRecDepth 4000 in
/-- C7 (evaluation of the code at the failing input): `decodePort` and
`decodePid` read the documented layouts (inner atom term, 4-byte id, for Pid
a 4-byte serial, 1-byte creation) and consume exactly those bytes, but the
synthesized string concatenates the inner `BertObj` wrapper itself, so an
atom "a" with id 5 produces "[object Object]<5>" rather than "a<5>". -/
theorem c7_port_pid_object_object :
    decodeData 9 [102, 100, 0, 1, 97, 0, 0, 0, 5, 0] =
      .ok (⟨"Port", .str (strCodes "[object Object]<5>")⟩, []) ∧
    decodeData 9 [103, 100, 0, 1, 97, 0, 0, 0, 5, 0, 0, 0, 6, 0] =
      .ok (⟨"Pid", .str (strCodes "[object Object]<5>")⟩, []) ∧
    strCodes "[object Object]<5>" ≠ strCodes "a<5>" :=
  ⟨rfl, rfl, by decide⟩

/-- Witness projecting `c7_port_pid_object_object` onto the Port case. -/
theorem c7_port_pid_object_object_witness :
    decodeData 9 [102, 100, 0, 1, 97, 0, 0, 0, 5, 0] =
      .ok (⟨"Port", .str (strCodes "[object Object]<5>")⟩, []) :=
  c7_port_pid_object_object.1

/-- C10: the tag registry maps byte 77 to "BitString", yet no BitString
decode routine exists, so decoding a term whose tag byte is 77 always fails;
the failure is the missing-method TypeError for "decodeBitString", not the
failure an unregistered tag byte (such as 80) produces, because the registry
lookup for 77 succeeds. -/
theorem c10_bitstring_tag_fails (fuel : Nat) (rest : List Int) :
    BERT_TOKENS 77 = some "BitString" ∧
    decodeData (fuel + 1) (77 :: rest) = .error (.typeError "decodeBitString") ∧
    decodeData (fuel + 1) (80 :: rest) = .error (.typeError "decodeundefined") ∧
    JsErr.typeError "decodeBitString" ≠ JsErr.typeError "decodeundefined" :=
  ⟨rfl, rfl, rfl, by decide⟩

/-- Witness instantiating `c10_bitstring_tag_fails` at fuel 8 and empty
remaining input. -/
theorem c10_bitstring_tag_fails_witness :
    decodeData 9 [77] = .error (.typeError "decodeBitString") :=
  (c10_bitstring_tag_fails 8 []).2.1

end Bertjs
